import Mathlib

/-!
Shallow embedding of the acme-standings source (src/main.py) and proofs about
its specification claims.

Modelling conventions:
* Calendar dates are abstracted as naturals preserving their order; no claim
  depends on the internal structure of a date, only on equality and comparison.
* The SQLAlchemy session is modelled by explicit state passing over a `DB`
  record holding the three durable collections (players, events, results).
  `db.commit()` boundaries are modelled faithfully: the upload handler
  commits the new Event immediately, and each `db.commit()` run when a new
  Player is created mid-loop commits the WHOLE session — the new Player and
  every Result row added by earlier iterations and still pending — because
  `Session.commit()` flushes all pending objects, not just the player.  Rows
  added after the last such commit stay pending until the final `db.commit()`
  on loop success; an exception raised mid-loop discards exactly those still
  pending rows (the session is closed by `get_db`'s `finally`) while
  everything already committed persists.
* In the source, the body of `upload_results` places the whole CSV-reading and
  insertion block inside the `if not event:` branch (the indentation of
  src/main.py lines 244-274), so when the (name, date) identity already exists
  the function changes nothing and falls through, returning None.  The
  embedding reproduces this control flow exactly.
* Python `int(...)` on the position text is modelled by `pyInt`; a failed
  parse models the `ValueError` that aborts the request.
-/

namespace AcmeStandings

/-- Embeds `class Player` (src/main.py lines 24-28): integer primary key and
a name (unique by DB constraint). -/
structure Player where
  id : Nat
  name : String
deriving DecidableEq

/-- Embeds `class Event` (src/main.py lines 31-44): integer primary key, name,
event_date, and the optional descriptive metadata fields. -/
structure Event where
  id : Nat
  name : String
  event_date : Nat
  start_time : Option String := none
  location : Option String := none
  format : Option String := none
  registration_url : Option String := none
  description : Option String := none
deriving DecidableEq

/-- Embeds `class Result` (src/main.py lines 46-55): references to the owning
event and player, the finishing position and the derived points.  (The
surrogate `id` column is read by nothing in the source and is omitted.) -/
structure Result where
  event_id : Nat
  player_id : Nat
  position : Int
  points : Int
deriving DecidableEq

/-- The persisted state: the three durable collections of the SQLite database
plus the autoincrement counters for the two primary keys that the source
actually reads back (`db.refresh`). -/
structure DB where
  players : List Player
  events : List Event
  results : List Result
  nextPlayerId : Nat := 0
  nextEventId : Nat := 0
deriving DecidableEq

/-- Embeds `POINTS_TABLE` (src/main.py lines 70-81), the F1-like dict from
finishing position to points. -/
def POINTS_TABLE : List (Int × Int) :=
  [(1, 25), (2, 18), (3, 15), (4, 12), (5, 10),
   (6, 8), (7, 6), (8, 4), (9, 2), (10, 1)]

/-- Embeds `POINTS_TABLE.get(position, 0)` (src/main.py line 262): dictionary
lookup with default 0. -/
def points_for (position : Int) : Int :=
  ((POINTS_TABLE.find? (fun kv => kv.1 == position)).map (fun kv => kv.2)).getD 0

/-- Embeds Python `str.strip()` (src/main.py line 251): remove surrounding
whitespace. -/
def pyStrip (s : String) : String :=
  ⟨((s.data.dropWhile Char.isWhitespace).reverse.dropWhile Char.isWhitespace).reverse⟩

/-- Numeric value of a list of decimal digit characters. -/
def digitsVal (cs : List Char) : Nat :=
  cs.foldl (fun acc c => 10 * acc + (c.toNat - 48)) 0

/-- Embeds Python `int(text)` as used on the CSV position field
(src/main.py line 252): surrounding whitespace is ignored, an optional single
sign is allowed, then one or more decimal digits; anything else raises
`ValueError`, modelled as `none`. -/
def pyInt (s : String) : Option Int :=
  match (pyStrip s).data with
  | [] => none
  | c :: rest =>
      if c = '-' then
        if rest ≠ [] ∧ rest.all Char.isDigit then some (-(digitsVal rest : Int)) else none
      else if c = '+' then
        if rest ≠ [] ∧ rest.all Char.isDigit then some ((digitsVal rest : Int)) else none
      else
        if (c :: rest).all Char.isDigit then some ((digitsVal (c :: rest) : Int)) else none

/-- One CSV row as produced by `csv.DictReader`: the raw text of the
`player` and `position` fields (src/main.py lines 248-252). -/
structure Row where
  player : String
  position : String
deriving DecidableEq

/-- Embeds the find-or-create of a player inside the upload loop
(src/main.py lines 255-260): query by exact name, create and commit when
absent.  Returns the state (the creation is committed at once) and the
resolved player id. -/
def resolve_player (db : DB) (name : String) : DB × Nat :=
  match db.players.find? (fun p => p.name == name) with
  | some p => (db, p.id)
  | none =>
      let p : Player := { id := db.nextPlayerId, name := name }
      ({ db with players := db.players ++ [p], nextPlayerId := db.nextPlayerId + 1 }, p.id)

/-- Embeds the find-or-create of an event by (name, date) identity
(src/main.py lines 229-241): query by exact name and date, create with only
those fields and commit when absent.  Returns the state and the resolved
event id. -/
def resolve_event (db : DB) (name : String) (ev_date : Nat) : DB × Nat :=
  match db.events.find? (fun e => e.name == name && e.event_date == ev_date) with
  | some e => (db, e.id)
  | none =>
      let e : Event := { id := db.nextEventId, name := name, event_date := ev_date }
      ({ db with events := db.events ++ [e], nextEventId := db.nextEventId + 1 }, e.id)

/-- Outcome of one call to the upload handler. -/
inductive UploadOutcome where
  /-- The final `RedirectResponse(url="/", 303)` was reached. -/
  | redirected : UploadOutcome
  /-- The event already existed: the insertion block (nested under
  `if not event:`) was skipped and the function fell through, returning
  None. -/
  | noneReturned : UploadOutcome
  /-- `int(row["position"])` raised `ValueError` on some row; the request
  aborted and the session's pending (uncommitted) rows were discarded. -/
  | valueError : UploadOutcome
deriving DecidableEq

/-- Embeds the `for row in reader:` loop of `upload_results`
(src/main.py lines 250-270) together with the session's flush semantics.
`pending` holds the Result rows added to the session (`db.add(result)`,
line 270) but not yet flushed.  A player lookup hit adds the row's Result to
the session and moves on; when the player is absent, the
`db.add(player); db.commit()` of lines 258-259 commits the WHOLE session —
the new Player and every pending Result row — after which the current row's
Result is added to the now-empty session.  Returns the committed state, the
rows still pending, and whether the loop completed without a
`ValueError`. -/
def ingestLoop (eventId : Nat) : DB → List Result → List Row → DB × List Result × Bool
  | db, pending, [] => (db, pending, true)
  | db, pending, row :: rest =>
      let player_name := pyStrip row.player
      match pyInt row.position with
      | none => (db, pending, false)
      | some position =>
          match db.players.find? (fun p => p.name == player_name) with
          | some player =>
              let points := points_for position
              let res : Result :=
                { event_id := eventId, player_id := player.id,
                  position := position, points := points }
              ingestLoop eventId db (pending ++ [res]) rest
          | none =>
              let player : Player := { id := db.nextPlayerId, name := player_name }
              let db1 : DB :=
                { db with players := db.players ++ [player],
                          nextPlayerId := db.nextPlayerId + 1,
                          results := db.results ++ pending }
              let points := points_for position
              let res : Result :=
                { event_id := eventId, player_id := player.id,
                  position := position, points := points }
              ingestLoop eventId db1 [res] rest

/-- Embeds `upload_results` (src/main.py lines 216-274) with the source's
indentation preserved: the event lookup happens first; only when no event
with the (name, date) identity exists is the event created and committed and
the CSV read and ingested (the whole block sits inside `if not event:`).
When the event already exists nothing at all happens.  On loop success the
pending Result rows are committed (`db.commit()`, line 272); on a
`ValueError` they are discarded. -/
def upload_results (db : DB) (event_name : String) (ev_date : Nat)
    (rows : List Row) : DB × UploadOutcome :=
  match db.events.find? (fun e => e.name == event_name && e.event_date == ev_date) with
  | some _ => (db, UploadOutcome.noneReturned)
  | none =>
      let event : Event := { id := db.nextEventId, name := event_name, event_date := ev_date }
      let db1 : DB :=
        { db with events := db.events ++ [event], nextEventId := db.nextEventId + 1 }
      match ingestLoop event.id db1 [] rows with
      | (db2, pending, true) =>
          ({ db2 with results := db2.results ++ pending }, UploadOutcome.redirected)
      | (db2, _, false) => (db2, UploadOutcome.valueError)

/-- Embeds the administrative `create_event` handler (src/main.py
lines 184-213): always inserts a new Event row with the supplied metadata,
regardless of any existing (name, date) identity, and returns its id. -/
def create_event (db : DB) (name : String) (ev_date : Nat)
    (start_time location format registration_url description : Option String) :
    DB × Nat :=
  let e : Event :=
    { id := db.nextEventId, name := name, event_date := ev_date,
      start_time := start_time, location := location, format := format,
      registration_url := registration_url, description := description }
  ({ db with events := db.events ++ [e], nextEventId := db.nextEventId + 1 }, e.id)

/-- Total points of one player: `func.sum(Result.points)` over that player's
Result rows (src/main.py line 97). -/
def playerTotal (db : DB) (p : Player) : Int :=
  ((db.results.filter (fun r => r.player_id == p.id)).map (fun r => r.points)).sum

/-- Whether a player has at least one Result row; the inner `.join(Result)`
(src/main.py line 98) keeps exactly these players. -/
def hasResult (db : DB) (p : Player) : Bool :=
  db.results.any (fun r => r.player_id == p.id)

/-- Lexicographic comparison of character lists by codepoint; this is the
order SQLite's default BINARY collation gives on UTF-8 encoded names (UTF-8
byte order coincides with codepoint order). -/
def charListLe : List Char → List Char → Bool
  | [], _ => true
  | _ :: _, [] => false
  | a :: as, b :: bs => if a = b then charListLe as bs else decide (a < b)

theorem charListLe_total : ∀ as bs : List Char,
    charListLe as bs = true ∨ charListLe bs as = true
  | [], _ => Or.inl rfl
  | _ :: _, [] => Or.inr rfl
  | a :: as, b :: bs => by
      by_cases hab : a = b
      · subst hab
        simpa [charListLe] using charListLe_total as bs
      · rcases lt_or_gt_of_ne hab with h | h
        · exact Or.inl (by simp [charListLe, hab, h])
        · exact Or.inr (by simp [charListLe, Ne.symm hab, h])

theorem charListLe_trans : ∀ as bs cs : List Char,
    charListLe as bs = true → charListLe bs cs = true → charListLe as cs = true
  | [], _, _, _, _ => rfl
  | _ :: _, [], _, h1, _ => by simp [charListLe] at h1
  | _ :: _, _ :: _, [], _, h2 => by simp [charListLe] at h2
  | a :: as, b :: bs, c :: cs, h1, h2 => by
      by_cases hab : a = b <;> by_cases hbc : b = c
      · subst hab; subst hbc
        simp only [charListLe, if_pos rfl] at h1 h2 ⊢
        exact charListLe_trans as bs cs h1 h2
      · subst hab
        simpa [charListLe, hbc] using h2
      · subst hbc
        simpa [charListLe, hab] using h1
      · simp only [charListLe, if_neg hab, decide_eq_true_eq] at h1
        simp only [charListLe, if_neg hbc, decide_eq_true_eq] at h2
        have hac : a < c := h1.trans h2
        simp [charListLe, ne_of_lt hac, hac]

/-- Name order used as the standings tie-break: `Player.name.asc()`. -/
def nameLe (a b : String) : Prop := charListLe a.data b.data = true

instance : DecidableRel nameLe := fun a b =>
  inferInstanceAs (Decidable (charListLe a.data b.data = true))

/-- The ORDER BY of the standings query (src/main.py line 100): total points
descending, then player name ascending. -/
def standingsRel (a b : String × Int) : Prop :=
  b.2 < a.2 ∨ (a.2 = b.2 ∧ nameLe a.1 b.1)

instance : DecidableRel standingsRel := fun a b =>
  inferInstanceAs (Decidable (b.2 < a.2 ∨ (a.2 = b.2 ∧ nameLe a.1 b.1)))

instance : IsTotal (String × Int) standingsRel where
  total a b := by
    unfold standingsRel
    rcases lt_trichotomy a.2 b.2 with h | h | h
    · exact Or.inr (Or.inl h)
    · rcases charListLe_total a.1.data b.1.data with hn | hn
      · exact Or.inl (Or.inr ⟨h, hn⟩)
      · exact Or.inr (Or.inr ⟨h.symm, hn⟩)
    · exact Or.inl (Or.inl h)

instance : IsTrans (String × Int) standingsRel where
  trans a b c hab hbc := by
    unfold standingsRel nameLe at *
    rcases hab with h1 | ⟨h1, h1n⟩ <;> rcases hbc with h2 | ⟨h2, h2n⟩
    · exact Or.inl (h2.trans h1)
    · exact Or.inl (h2 ▸ h1)
    · exact Or.inl (h1 ▸ h2)
    · exact Or.inr ⟨h1.trans h2, charListLe_trans _ _ _ h1n h2n⟩

/-- Embeds `read_standings` (src/main.py lines 94-103): join players with
their results, sum points per player, order by total descending with name
ascending as tie-break. -/
def read_standings (db : DB) : List (String × Int) :=
  ((db.players.filter (hasResult db)).map
    (fun p => (p.name, playerTotal db p))).insertionSort standingsRel

/-- ORDER BY `event_date` ascending (src/main.py line 125). -/
def dateAscRel (a b : Event) : Prop := a.event_date ≤ b.event_date

instance : DecidableRel dateAscRel := fun a b =>
  inferInstanceAs (Decidable (a.event_date ≤ b.event_date))

instance : IsTotal Event dateAscRel := ⟨fun a b => Nat.le_total a.event_date b.event_date⟩

instance : IsTrans Event dateAscRel := ⟨fun _ _ _ h1 h2 => Nat.le_trans h1 h2⟩

/-- ORDER BY `event_date` descending (src/main.py line 133). -/
def dateDescRel (a b : Event) : Prop := b.event_date ≤ a.event_date

instance : DecidableRel dateDescRel := fun a b =>
  inferInstanceAs (Decidable (b.event_date ≤ a.event_date))

instance : IsTotal Event dateDescRel := ⟨fun a b => Nat.le_total b.event_date a.event_date⟩

instance : IsTrans Event dateDescRel := ⟨fun _ _ _ h1 h2 => Nat.le_trans h2 h1⟩

/-- Embeds `read_events` (src/main.py lines 117-135): upcoming events are
those with `event_date >= today`, ordered by date ascending; past events are
those with `event_date < today`, ordered by date descending. -/
def read_events (db : DB) (today : Nat) : List Event × List Event :=
  ((db.events.filter (fun e => decide (today ≤ e.event_date))).insertionSort dateAscRel,
   (db.events.filter (fun e => decide (e.event_date < today))).insertionSort dateDescRel)

/-- ORDER BY `position` ascending on the joined rows (src/main.py
line 160). -/
def positionRel (a b : Result × String) : Prop := a.1.position ≤ b.1.position

instance : DecidableRel positionRel := fun a b =>
  inferInstanceAs (Decidable (a.1.position ≤ b.1.position))

instance : IsTotal (Result × String) positionRel :=
  ⟨fun a b => Int.le_total a.1.position b.1.position⟩

instance : IsTrans (Result × String) positionRel :=
  ⟨fun _ _ _ h1 h2 => Int.le_trans h1 h2⟩

/-- Embeds `event_detail` (src/main.py lines 149-171): `none` models the
HTTP 404 raised when no event has the requested id; otherwise the event is
returned together with its Result rows joined with the player (the inner
`.join(Player)` pairs each row with its player's name), ordered by position
ascending. -/
def event_detail (db : DB) (event_id : Nat) :
    Option (Event × List (Result × String)) :=
  match db.events.find? (fun e => e.id == event_id) with
  | none => none
  | some ev =>
      let joined :=
        (db.results.filter (fun r => r.event_id == event_id)).filterMap
          (fun r => (db.players.find? (fun p => p.id == r.player_id)).map
            (fun p => (r, p.name)))
      some (ev, joined.insertionSort positionRel)

/-- The documented invariant of the Result collection: points are always the
scoring-table image of the position (src/main.py line 262), and Results are
never updated after creation. -/
def ResultsInvariant (db : DB) : Prop :=
  ∀ r ∈ db.results, r.points = points_for r.position

/-- The empty initial database (fresh `pinball.db`). -/
def emptyDB : DB := { players := [], events := [], results := [] }

/-- A database holding exactly one Event with identity ("Cup", day 5). -/
def cupDB : DB :=
  { players := [], events := [{ id := 0, name := "Cup", event_date := 5 }],
    results := [], nextPlayerId := 0, nextEventId := 1 }

/-- The spec's standings example, built through the upload handler itself:
Alice and Bob tie on position 1 (25 points each), Carol takes position 2
(18 points). -/
def sampleDB : DB :=
  (upload_results emptyDB "Cup" 5
    [{ player := "Alice", position := "1" }, { player := "Bob", position := "1" },
     { player := "Carol", position := "2" }]).1

/-! ## Helper lemmas about the scoring table -/

theorem points_for_outside_zero (p : Int) (h : p < 1 ∨ 10 < p) : points_for p = 0 := by
  have e1 : (((1 : Int), (25 : Int)).1 == p) = false := by simp; omega
  have e2 : (((2 : Int), (18 : Int)).1 == p) = false := by simp; omega
  have e3 : (((3 : Int), (15 : Int)).1 == p) = false := by simp; omega
  have e4 : (((4 : Int), (12 : Int)).1 == p) = false := by simp; omega
  have e5 : (((5 : Int), (10 : Int)).1 == p) = false := by simp; omega
  have e6 : (((6 : Int), (8 : Int)).1 == p) = false := by simp; omega
  have e7 : (((7 : Int), (6 : Int)).1 == p) = false := by simp; omega
  have e8 : (((8 : Int), (4 : Int)).1 == p) = false := by simp; omega
  have e9 : (((9 : Int), (2 : Int)).1 == p) = false := by simp; omega
  have e10 : (((10 : Int), (1 : Int)).1 == p) = false := by simp; omega
  simp [points_for, POINTS_TABLE, e1, e2, e3, e4, e5, e6, e7, e8, e9, e10]

theorem points_for_nonneg_mem (p : Int) :
    0 ≤ points_for p ∧
      points_for p ∈ ({0, 1, 2, 4, 6, 8, 10, 12, 15, 18, 25} : Finset Int) := by
  have h : p < 1 ∨ p = 1 ∨ p = 2 ∨ p = 3 ∨ p = 4 ∨ p = 5 ∨ p = 6 ∨ p = 7 ∨ p = 8 ∨
      p = 9 ∨ p = 10 ∨ 10 < p := by omega
  rcases h with h | h | h | h | h | h | h | h | h | h | h | h
  · rw [points_for_outside_zero p (Or.inl h)]; exact ⟨le_refl 0, by decide⟩
  all_goals try (subst h; exact ⟨by decide, by decide⟩)
  · rw [points_for_outside_zero p (Or.inr h)]; exact ⟨le_refl 0, by decide⟩

/-! ## Helper lemmas about the resolvers -/

theorem resolve_player_results (db : DB) (name : String) :
    (resolve_player db name).1.results = db.results := by
  unfold resolve_player
  cases db.players.find? (fun p => p.name == name) <;> rfl

theorem resolve_player_events (db : DB) (name : String) :
    (resolve_player db name).1.events = db.events := by
  unfold resolve_player
  cases db.players.find? (fun p => p.name == name) <;> rfl

theorem resolve_player_nextEventId (db : DB) (name : String) :
    (resolve_player db name).1.nextEventId = db.nextEventId := by
  unfold resolve_player
  cases db.players.find? (fun p => p.name == name) <;> rfl

theorem resolve_player_players (db : DB) (name : String) :
    ∃ new, (resolve_player db name).1.players = db.players ++ new := by
  unfold resolve_player
  cases db.players.find? (fun p => p.name == name)
  · exact ⟨[{ id := db.nextPlayerId, name := name }], rfl⟩
  · exact ⟨[], by simp⟩

theorem resolve_player_resolved (db : DB) (name : String) :
    ∃ p, p ∈ (resolve_player db name).1.players ∧ p.name = name ∧
      (resolve_player db name).2 = p.id := by
  unfold resolve_player
  cases h : db.players.find? (fun p => p.name == name) with
  | none =>
      exact ⟨{ id := db.nextPlayerId, name := name }, by simp, rfl, rfl⟩
  | some p =>
      refine ⟨p, List.mem_of_find?_eq_some h, ?_, rfl⟩
      have := List.find?_some h
      simpa using this

theorem resolve_player_fixpoint (db : DB) (name : String) :
    resolve_player (resolve_player db name).1 name =
      ((resolve_player db name).1, (resolve_player db name).2) := by
  unfold resolve_player
  cases h : db.players.find? (fun p => p.name == name) with
  | none =>
      have hnone : db.players.find? (fun p => p.name == name) = none := h
      rw [List.find?_eq_none] at hnone
      simp only [List.find?_append, hnone]
      simp [List.find?_eq_none.mpr hnone]
  | some p => simp [h]

theorem resolve_player_count (db : DB) (name : String)
    (h : db.players.countP (fun p => p.name == name) ≤ 1) :
    (resolve_player db name).1.players.countP (fun p => p.name == name) = 1 := by
  unfold resolve_player
  cases hf : db.players.find? (fun p => p.name == name) with
  | none =>
      have hnone := List.find?_eq_none.mp hf
      have hz : db.players.countP (fun p => p.name == name) = 0 :=
        List.countP_eq_zero.mpr hnone
      simp [List.countP_append, hz]
  | some p =>
      have hp : p ∈ db.players := List.mem_of_find?_eq_some hf
      have hpa := List.find?_some hf
      have h1 : 1 ≤ db.players.countP (fun q => q.name == name) := by
        calc 1 = List.countP (fun q => q.name == name) [p] := by simp [hpa]
        _ ≤ _ := List.Sublist.countP_le _ (List.singleton_sublist.mpr hp)
      show db.players.countP (fun p => p.name == name) = 1
      omega

theorem resolve_event_results (db : DB) (name : String) (d : Nat) :
    (resolve_event db name d).1.results = db.results := by
  unfold resolve_event
  cases db.events.find? (fun e => e.name == name && e.event_date == d) <;> rfl

theorem resolve_event_players (db : DB) (name : String) (d : Nat) :
    (resolve_event db name d).1.players = db.players := by
  unfold resolve_event
  cases db.events.find? (fun e => e.name == name && e.event_date == d) <;> rfl

theorem resolve_event_fixpoint (db : DB) (name : String) (d : Nat) :
    resolve_event (resolve_event db name d).1 name d =
      ((resolve_event db name d).1, (resolve_event db name d).2) := by
  unfold resolve_event
  cases h : db.events.find? (fun e => e.name == name && e.event_date == d) with
  | none =>
      have hnone := List.find?_eq_none.mp h
      simp only [List.find?_append, List.find?_eq_none.mpr hnone]
      simp
  | some e => simp [h]

theorem resolve_event_count (db : DB) (name : String) (d : Nat)
    (h : db.events.countP (fun e => e.name == name && e.event_date == d) ≤ 1) :
    (resolve_event db name d).1.events.countP
      (fun e => e.name == name && e.event_date == d) = 1 := by
  unfold resolve_event
  cases hf : db.events.find? (fun e => e.name == name && e.event_date == d) with
  | none =>
      have hnone := List.find?_eq_none.mp hf
      have hz : db.events.countP (fun e => e.name == name && e.event_date == d) = 0 :=
        List.countP_eq_zero.mpr hnone
      simp [List.countP_append, hz]
  | some e =>
      have hp : e ∈ db.events := List.mem_of_find?_eq_some hf
      have hpa := List.find?_some hf
      have h1 : 1 ≤ db.events.countP (fun q => q.name == name && q.event_date == d) := by
        calc 1 = List.countP (fun q => q.name == name && q.event_date == d) [e] := by
              simp [hpa]
        _ ≤ _ := List.Sublist.countP_le _ (List.singleton_sublist.mpr hp)
      show db.events.countP (fun e => e.name == name && e.event_date == d) = 1
      omega

/-! ## Helper lemmas about the ingestion loop -/

theorem ingestLoop_cons (eventId : Nat) (db : DB) (pending : List Result)
    (row : Row) (rest : List Row) :
    ingestLoop eventId db pending (row :: rest) =
      match pyInt row.position with
      | none => (db, pending, false)
      | some position =>
          match db.players.find? (fun p => p.name == pyStrip row.player) with
          | some player =>
              ingestLoop eventId db
                (pending ++ [{ event_id := eventId, player_id := player.id,
                               position := position,
                               points := points_for position }]) rest
          | none =>
              ingestLoop eventId
                { db with
                    players := db.players ++
                      [{ id := db.nextPlayerId, name := pyStrip row.player }],
                    nextPlayerId := db.nextPlayerId + 1,
                    results := db.results ++ pending }
                [{ event_id := eventId, player_id := db.nextPlayerId,
                   position := position, points := points_for position }] rest := rfl

theorem ingestLoop_frame (eventId : Nat) : ∀ (rows : List Row) (db : DB)
    (pending : List Result),
    (ingestLoop eventId db pending rows).1.events = db.events ∧
    (ingestLoop eventId db pending rows).1.nextEventId = db.nextEventId ∧
    ∃ new, (ingestLoop eventId db pending rows).1.players = db.players ++ new
  | [], db, pending => ⟨rfl, rfl, [], by simp [ingestLoop]⟩
  | row :: rest, db, pending => by
      rw [ingestLoop_cons]
      cases h : pyInt row.position with
      | none => exact ⟨rfl, rfl, [], by simp⟩
      | some pos =>
          cases hf : db.players.find? (fun p => p.name == pyStrip row.player) with
          | some player => exact ingestLoop_frame eventId rest db _
          | none =>
              obtain ⟨h1, h2, new, h3⟩ :=
                ingestLoop_frame eventId rest
                  { db with
                      players := db.players ++
                        [{ id := db.nextPlayerId, name := pyStrip row.player }],
                      nextPlayerId := db.nextPlayerId + 1,
                      results := db.results ++ pending }
                  [{ event_id := eventId, player_id := db.nextPlayerId,
                     position := pos, points := points_for pos }]
              refine ⟨by rw [h1], by rw [h2],
                { id := db.nextPlayerId, name := pyStrip row.player } :: new, ?_⟩
              rw [h3]
              simp

theorem ingestLoop_results_append (eventId : Nat) : ∀ (rows : List Row) (db : DB)
    (pending : List Result),
    ∃ flushed, (ingestLoop eventId db pending rows).1.results = db.results ++ flushed
  | [], db, pending => ⟨[], by simp [ingestLoop]⟩
  | row :: rest, db, pending => by
      rw [ingestLoop_cons]
      cases h : pyInt row.position with
      | none => exact ⟨[], by simp⟩
      | some pos =>
          cases hf : db.players.find? (fun p => p.name == pyStrip row.player) with
          | some player => exact ingestLoop_results_append eventId rest db _
          | none =>
              obtain ⟨flushed, hfl⟩ :=
                ingestLoop_results_append eventId rest
                  { db with
                      players := db.players ++
                        [{ id := db.nextPlayerId, name := pyStrip row.player }],
                      nextPlayerId := db.nextPlayerId + 1,
                      results := db.results ++ pending }
                  [{ event_id := eventId, player_id := db.nextPlayerId,
                     position := pos, points := points_for pos }]
              refine ⟨pending ++ flushed, ?_⟩
              rw [hfl]
              show db.results ++ pending ++ flushed = db.results ++ (pending ++ flushed)
              rw [List.append_assoc]

theorem ingestLoop_inv (eventId : Nat) : ∀ (rows : List Row) (db : DB)
    (pending : List Result),
    (∀ x ∈ pending, x.points = points_for x.position ∧ x.event_id = eventId) →
    (∃ flushed, (ingestLoop eventId db pending rows).1.results = db.results ++ flushed ∧
      ∀ x ∈ flushed, x.points = points_for x.position ∧ x.event_id = eventId) ∧
    (∀ x ∈ (ingestLoop eventId db pending rows).2.1,
      x.points = points_for x.position ∧ x.event_id = eventId)
  | [], db, pending => fun hp => ⟨⟨[], by simp [ingestLoop], by simp⟩, hp⟩
  | row :: rest, db, pending => by
      intro hp
      rw [ingestLoop_cons]
      cases h : pyInt row.position with
      | none => exact ⟨⟨[], by simp, by simp⟩, hp⟩
      | some pos =>
          cases hf : db.players.find? (fun p => p.name == pyStrip row.player) with
          | some player =>
              apply ingestLoop_inv eventId rest db
              intro x hx
              rcases List.mem_append.mp hx with hx | hx
              · exact hp x hx
              · rcases List.mem_singleton.mp hx with rfl
                exact ⟨rfl, rfl⟩
          | none =>
              obtain ⟨⟨flushed, hfl, hflP⟩, hpend⟩ :=
                ingestLoop_inv eventId rest
                  { db with
                      players := db.players ++
                        [{ id := db.nextPlayerId, name := pyStrip row.player }],
                      nextPlayerId := db.nextPlayerId + 1,
                      results := db.results ++ pending }
                  [{ event_id := eventId, player_id := db.nextPlayerId,
                     position := pos, points := points_for pos }]
                  (by intro x hx
                      rcases List.mem_singleton.mp hx with rfl
                      exact ⟨rfl, rfl⟩)
              refine ⟨⟨pending ++ flushed, ?_, ?_⟩, hpend⟩
              · rw [hfl]
                show db.results ++ pending ++ flushed = db.results ++ (pending ++ flushed)
                rw [List.append_assoc]
              · intro x hx
                rcases List.mem_append.mp hx with hx | hx
                · exact hp x hx
                · exact hflP x hx

theorem ingestLoop_append (eventId : Nat) (xs : List Row) : ∀ (ys : List Row) (db : DB)
    (pending : List Result),
    ingestLoop eventId db pending (xs ++ ys) =
      if (ingestLoop eventId db pending xs).2.2 = true then
        ingestLoop eventId (ingestLoop eventId db pending xs).1
          (ingestLoop eventId db pending xs).2.1 ys
      else ingestLoop eventId db pending xs := by
  induction xs with
  | nil => intro ys db pending; simp [ingestLoop]
  | cons row xs ih =>
      intro ys db pending
      rw [List.cons_append, ingestLoop_cons, ingestLoop_cons]
      cases h : pyInt row.position with
      | none => simp
      | some pos =>
          cases hf : db.players.find? (fun p => p.name == pyStrip row.player) with
          | some player => exact ih ys _ _
          | none => exact ih ys _ _

theorem ingestLoop_success (eventId : Nat) : ∀ (rows : List Row) (db : DB)
    (pending : List Result),
    (∀ r ∈ rows, (pyInt r.position).isSome) →
    (ingestLoop eventId db pending rows).2.2 = true
  | [], _, _ => fun _ => rfl
  | row :: rest, db, pending => by
      intro hall
      rw [ingestLoop_cons]
      cases h : pyInt row.position with
      | none =>
          have := hall row (List.mem_cons_self row rest)
          rw [h] at this
          simp at this
      | some pos =>
          cases hf : db.players.find? (fun p => p.name == pyStrip row.player) with
          | some player =>
              exact ingestLoop_success eventId rest _ _
                (fun r hr => hall r (List.mem_cons_of_mem row hr))
          | none =>
              exact ingestLoop_success eventId rest _ _
                (fun r hr => hall r (List.mem_cons_of_mem row hr))

theorem ingestLoop_abort_head (eventId : Nat) (db : DB) (pending : List Result)
    (bad : Row) (rest : List Row) (h : pyInt bad.position = none) :
    ingestLoop eventId db pending (bad :: rest) = (db, pending, false) := by
  rw [ingestLoop_cons, h]

theorem ingestLoop_players_mono (eventId : Nat) (rows : List Row) (db : DB)
    (pending : List Result) (p : Player) (hp : p ∈ db.players) :
    p ∈ (ingestLoop eventId db pending rows).1.players := by
  obtain ⟨_, _, new, hnew⟩ := ingestLoop_frame eventId rows db pending
  rw [hnew]
  exact List.mem_append_left _ hp

theorem ingestLoop_sticky (eventId : Nat) : ∀ (rows : List Row) (db : DB)
    (pending : List Result) (x : Result), x ∈ pending →
    x ∈ (ingestLoop eventId db pending rows).1.results ∨
    x ∈ (ingestLoop eventId db pending rows).2.1
  | [], db, pending, x => fun hx => Or.inr hx
  | row :: rest, db, pending, x => by
      intro hx
      rw [ingestLoop_cons]
      cases h : pyInt row.position with
      | none => exact Or.inr hx
      | some pos =>
          cases hf : db.players.find? (fun p => p.name == pyStrip row.player) with
          | some player =>
              exact ingestLoop_sticky eventId rest db _ x (List.mem_append_left _ hx)
          | none =>
              left
              obtain ⟨flushed, hfl⟩ :=
                ingestLoop_results_append eventId rest
                  { db with
                      players := db.players ++
                        [{ id := db.nextPlayerId, name := pyStrip row.player }],
                      nextPlayerId := db.nextPlayerId + 1,
                      results := db.results ++ pending }
                  [{ event_id := eventId, player_id := db.nextPlayerId,
                     position := pos, points := points_for pos }]
              rw [hfl]
              exact List.mem_append_left _ (List.mem_append_right _ hx)

theorem ingestLoop_step_some (eventId : Nat) (db : DB) (pending : List Result)
    (row : Row) (rest : List Row) (pos : Int) (hpos : pyInt row.position = some pos) :
    ∃ db1 pending1 p,
      ingestLoop eventId db pending (row :: rest) =
        ingestLoop eventId db1 pending1 rest ∧
      p ∈ db1.players ∧ p.name = pyStrip row.player ∧
      ({ event_id := eventId, player_id := p.id, position := pos,
         points := points_for pos } : Result) ∈ pending1 := by
  rw [ingestLoop_cons, hpos]
  cases hf : db.players.find? (fun p => p.name == pyStrip row.player) with
  | some player =>
      refine ⟨db, _, player, rfl, List.mem_of_find?_eq_some hf, ?_, ?_⟩
      · simpa using List.find?_some hf
      · exact List.mem_append_right _ (List.mem_singleton.mpr rfl)
  | none =>
      refine ⟨_, _, { id := db.nextPlayerId, name := pyStrip row.player }, rfl, ?_, rfl, ?_⟩
      · exact List.mem_append_right _ (List.mem_singleton.mpr rfl)
      · exact List.mem_singleton.mpr rfl

/-! ## Helper lemmas about the upload handler -/

/-- The committed state right after `upload_results` creates and commits the
missing event (src/main.py lines 238-241). -/
def uploadFreshState (db : DB) (event_name : String) (ev_date : Nat) : DB :=
  { db with
      events := db.events ++ [{ id := db.nextEventId, name := event_name,
                                event_date := ev_date }],
      nextEventId := db.nextEventId + 1 }

theorem upload_results_found (db : DB) (event_name : String) (ev_date : Nat)
    (rows : List Row) (e : Event)
    (h : db.events.find? (fun e => e.name == event_name && e.event_date == ev_date) =
      some e) :
    upload_results db event_name ev_date rows = (db, UploadOutcome.noneReturned) := by
  unfold upload_results
  rw [h]

theorem upload_results_fresh (db : DB) (event_name : String) (ev_date : Nat)
    (rows : List Row)
    (h : db.events.find? (fun e => e.name == event_name && e.event_date == ev_date) =
      none) :
    upload_results db event_name ev_date rows =
      match ingestLoop db.nextEventId (uploadFreshState db event_name ev_date) [] rows with
      | (db2, pending, true) =>
          ({ db2 with results := db2.results ++ pending }, UploadOutcome.redirected)
      | (db2, _, false) => (db2, UploadOutcome.valueError) := by
  unfold upload_results uploadFreshState
  rw [h]

theorem find?_identity_eq_none (db : DB) (event_name : String) (ev_date : Nat)
    (hfresh : ∀ e ∈ db.events, ¬(e.name = event_name ∧ e.event_date = ev_date)) :
    db.events.find? (fun e => e.name == event_name && e.event_date == ev_date) = none := by
  rw [List.find?_eq_none]
  intro e he
  have := hfresh e he
  simp only [Bool.and_eq_true, beq_iff_eq]
  intro hcontra
  exact this ⟨hcontra.1, by exact_mod_cast hcontra.2⟩

/-! ## Claim theorems -/

/-- C4: `points_for` is a total function that never rejects input: every
position 1..10 returns the fixed table value (1 gives 25, 2 gives 18, 3 gives
15, 4 gives 12, 5 gives 10, 6 gives 8, 7 gives 6, 8 gives 4, 9 gives 2, 10
gives 1), and every integer outside 1..10 (0, negatives, values above 10)
returns 0. -/
theorem points_for_spec :
    (points_for 1 = 25 ∧ points_for 2 = 18 ∧ points_for 3 = 15 ∧ points_for 4 = 12 ∧
     points_for 5 = 10 ∧ points_for 6 = 8 ∧ points_for 7 = 6 ∧ points_for 8 = 4 ∧
     points_for 9 = 2 ∧ points_for 10 = 1) ∧
    ∀ p : Int, p < 1 ∨ 10 < p → points_for p = 0 :=
  ⟨by decide, points_for_outside_zero⟩

/-- Witness for C4 at the concrete out-of-range positions 0, 11 and -5. -/
theorem points_for_spec_witness :
    points_for 0 = 0 ∧ points_for 11 = 0 ∧ points_for (-5) = 0 :=
  ⟨points_for_spec.2 0 (Or.inl (by decide)),
   points_for_spec.2 11 (Or.inr (by decide)),
   points_for_spec.2 (-5) (Or.inl (by decide))⟩

/-- C1 (failing-input evidence): uploading a batch with one well-formed row
for the already-existing Event identity ("Cup", day 5) persists zero Result
rows and leaves the state untouched, while the claim demands exactly one
Result row per batch row regardless of whether the event already existed.
The insertion block of `upload_results` is nested under `if not event:`
(src/main.py lines 237-272), so it never runs for an existing event. -/
theorem upload_existing_event_inserts_nothing :
    (upload_results cupDB "Cup" 5 [{ player := "Alice", position := "1" }]).1 = cupDB ∧
    (upload_results cupDB "Cup" 5
      [{ player := "Alice", position := "1" }]).1.results.length = 0 ∧
    ([{ player := "Alice", position := "1" }] : List Row).length = 1 ∧
    (upload_results cupDB "Cup" 5 [{ player := "Alice", position := "1" }]).2 =
      UploadOutcome.noneReturned := by
  decide

/-- C9: when the (event_name, event_date) identity matches an existing Event,
the upload call is a complete no-op on persisted state: every collection is
returned unchanged and the handler skips the insertion block entirely,
falling through with None. -/
theorem upload_existing_event_noop (db : DB) (event_name : String) (ev_date : Nat)
    (rows : List Row) (e : Event) (he : e ∈ db.events) (hn : e.name = event_name)
    (hd : e.event_date = ev_date) :
    (upload_results db event_name ev_date rows).1 = db ∧
    (upload_results db event_name ev_date rows).2 = UploadOutcome.noneReturned := by
  have hs : (db.events.find?
      (fun e => e.name == event_name && e.event_date == ev_date)).isSome := by
    rw [List.find?_isSome]
    exact ⟨e, he, by simp [hn, hd]⟩
  cases hf : db.events.find? (fun e => e.name == event_name && e.event_date == ev_date) with
  | none => rw [hf] at hs; simp at hs
  | some e2 =>
      rw [upload_results_found db event_name ev_date rows e2 hf]
      exact ⟨rfl, rfl⟩

/-- Witness for C9: re-uploading a one-row batch for the existing
("Cup", day 5) event of `cupDB` changes nothing. -/
theorem upload_existing_event_noop_witness :
    (upload_results cupDB "Cup" 5 [{ player := "Bob", position := "2" }]).1 = cupDB ∧
    (upload_results cupDB "Cup" 5 [{ player := "Bob", position := "2" }]).2 =
      UploadOutcome.noneReturned :=
  upload_existing_event_noop cupDB "Cup" 5 [{ player := "Bob", position := "2" }]
    { id := 0, name := "Cup", event_date := 5 } (by decide) (by decide) (by decide)

/-- C6: find-or-create resolution is idempotent.  Resolving the same event
identity (name, date) a second time returns the same identifier and leaves
the state exactly as after the first resolution, and exactly one Event row
with that identity exists afterwards; likewise resolving the same player
name a second (and, the state being a fixpoint, any later) time returns the
first creation's identifier, leaves the state unchanged, and exactly one
Player row with that name exists. -/
theorem resolve_idempotent (db : DB) (event_name pname : String) (ev_date : Nat)
    (hev : db.events.countP (fun e => e.name == event_name && e.event_date == ev_date) ≤ 1)
    (hpl : db.players.countP (fun p => p.name == pname) ≤ 1) :
    resolve_event (resolve_event db event_name ev_date).1 event_name ev_date =
      ((resolve_event db event_name ev_date).1, (resolve_event db event_name ev_date).2) ∧
    (resolve_event db event_name ev_date).1.events.countP
      (fun e => e.name == event_name && e.event_date == ev_date) = 1 ∧
    resolve_player (resolve_player db pname).1 pname =
      ((resolve_player db pname).1, (resolve_player db pname).2) ∧
    (resolve_player db pname).1.players.countP (fun p => p.name == pname) = 1 :=
  ⟨resolve_event_fixpoint db event_name ev_date,
   resolve_event_count db event_name ev_date hev,
   resolve_player_fixpoint db pname, resolve_player_count db pname hpl⟩

/-- Witness for C6 on the empty database with identity ("Cup", day 5) and
player name "Alice". -/
theorem resolve_idempotent_witness :
    resolve_event (resolve_event emptyDB "Cup" 5).1 "Cup" 5 =
      ((resolve_event emptyDB "Cup" 5).1, (resolve_event emptyDB "Cup" 5).2) ∧
    (resolve_event emptyDB "Cup" 5).1.events.countP
      (fun e => e.name == "Cup" && e.event_date == 5) = 1 ∧
    resolve_player (resolve_player emptyDB "Alice").1 "Alice" =
      ((resolve_player emptyDB "Alice").1, (resolve_player emptyDB "Alice").2) ∧
    (resolve_player emptyDB "Alice").1.players.countP (fun p => p.name == "Alice") = 1 :=
  resolve_idempotent emptyDB "Cup" "Alice" 5 (by decide) (by decide)

/-- C2 counterexample: on the empty database, uploading the fresh batch
("Cup", day 5) with rows [Alice at "1", Bob at "2", Carol at "x"] fails with
a ValueError, yet afterwards the new Event row, the Player rows for Alice
and Bob, AND Alice's Result row are observable: the `db.commit()` issued
when Bob is created (src/main.py line 259) flushes the whole session,
durably committing Alice's previously added Result.  The pre-call state is
not restored — full rollback fails for entities and even for Result rows. -/
theorem upload_abort_keeps_entities_cex :
    (upload_results emptyDB "Cup" 5
      [{ player := "Alice", position := "1" }, { player := "Bob", position := "2" },
       { player := "Carol", position := "x" }]).2 = UploadOutcome.valueError ∧
    (upload_results emptyDB "Cup" 5
      [{ player := "Alice", position := "1" }, { player := "Bob", position := "2" },
       { player := "Carol", position := "x" }]).1.results =
      [{ event_id := 0, player_id := 0, position := 1, points := 25 }] ∧
    (upload_results emptyDB "Cup" 5
      [{ player := "Alice", position := "1" }, { player := "Bob", position := "2" },
       { player := "Carol", position := "x" }]).1.events =
      [{ id := 0, name := "Cup", event_date := 5 }] ∧
    (upload_results emptyDB "Cup" 5
      [{ player := "Alice", position := "1" }, { player := "Bob", position := "2" },
       { player := "Carol", position := "x" }]).1.players =
      [{ id := 0, name := "Alice" }, { id := 1, name := "Bob" }] := by
  decide

/-- C2 as amended: for a batch on a not-yet-existing event identity whose
rows parse up to the first unparseable position, the call fails with a
ValueError, but there is no rollback to the pre-call state: the Event row
created for the batch is committed, the Player rows created before the
failure remain, and the batch's Result rows that a mid-loop player-creation
`db.commit()` had already flushed remain persisted (each linking the new
event and carrying the scoring-table points for its position); only the
Result rows still pending in the session when the exception aborts the
request are discarded, and pre-existing rows are untouched. -/
theorem upload_abort_spec (db : DB) (event_name : String) (ev_date : Nat)
    (pre rest : List Row) (bad : Row)
    (hfresh : ∀ e ∈ db.events, ¬(e.name = event_name ∧ e.event_date = ev_date))
    (hpre : ∀ r ∈ pre, (pyInt r.position).isSome)
    (hbad : pyInt bad.position = none) :
    (upload_results db event_name ev_date (pre ++ bad :: rest)).2 =
      UploadOutcome.valueError ∧
    (upload_results db event_name ev_date (pre ++ bad :: rest)).1.events =
      db.events ++ [{ id := db.nextEventId, name := event_name, event_date := ev_date }] ∧
    (∃ new, (upload_results db event_name ev_date (pre ++ bad :: rest)).1.players =
      db.players ++ new) ∧
    (∃ flushed, (upload_results db event_name ev_date (pre ++ bad :: rest)).1.results =
        db.results ++ flushed ∧
      ∀ x ∈ flushed, x.event_id = db.nextEventId ∧
        x.points = points_for x.position) := by
  have hf := find?_identity_eq_none db event_name ev_date hfresh
  rw [upload_results_fresh db event_name ev_date _ hf]
  have hflag : (ingestLoop db.nextEventId (uploadFreshState db event_name ev_date)
      [] pre).2.2 = true :=
    ingestLoop_success db.nextEventId pre _ [] hpre
  have happ : ingestLoop db.nextEventId (uploadFreshState db event_name ev_date) []
      (pre ++ bad :: rest) =
      ((ingestLoop db.nextEventId (uploadFreshState db event_name ev_date) [] pre).1,
       (ingestLoop db.nextEventId (uploadFreshState db event_name ev_date) [] pre).2.1,
       false) := by
    rw [ingestLoop_append db.nextEventId pre (bad :: rest) _ [], if_pos hflag,
      ingestLoop_abort_head db.nextEventId _ _ bad rest hbad]
  rw [happ]
  obtain ⟨hev, -, new, hpl⟩ :=
    ingestLoop_frame db.nextEventId pre (uploadFreshState db event_name ev_date) []
  obtain ⟨⟨flushed, hfl, hflP⟩, -⟩ :=
    ingestLoop_inv db.nextEventId pre (uploadFreshState db event_name ev_date) []
      (by intro x hx; simp at hx)
  refine ⟨rfl, ?_, ⟨new, ?_⟩, flushed, ?_, ?_⟩
  · rw [hev]; rfl
  · rw [hpl]; rfl
  · rw [hfl]; rfl
  · intro x hx
    exact ⟨(hflP x hx).2, (hflP x hx).1⟩

/-- Witness for C2's amended statement on the concrete counterexample
batch. -/
theorem upload_abort_spec_witness :
    (upload_results emptyDB "Cup" 5
      ([{ player := "Alice", position := "1" }, { player := "Bob", position := "2" }] ++
        { player := "Carol", position := "x" } :: [])).2 = UploadOutcome.valueError ∧
    (upload_results emptyDB "Cup" 5
      ([{ player := "Alice", position := "1" }, { player := "Bob", position := "2" }] ++
        { player := "Carol", position := "x" } :: [])).1.events =
      emptyDB.events ++
        [{ id := emptyDB.nextEventId, name := "Cup", event_date := 5 }] :=
  ⟨(upload_abort_spec emptyDB "Cup" 5
      [{ player := "Alice", position := "1" }, { player := "Bob", position := "2" }] []
      { player := "Carol", position := "x" } (by decide) (by decide) (by decide)).1,
   (upload_abort_spec emptyDB "Cup" 5
      [{ player := "Alice", position := "1" }, { player := "Bob", position := "2" }] []
      { player := "Carol", position := "x" } (by decide) (by decide) (by decide)).2.1⟩

/-- C5 counterexample: a row whose player name is blank after trimming is NOT
rejected: the upload call succeeds, creating a Player whose name is the empty
string and a Result row for it — there is no MalformedInput check on names in
the source (src/main.py line 251 only strips the name). -/
theorem upload_blank_name_accepted_cex :
    (upload_results emptyDB "Cup" 5 [{ player := "   ", position := "1" }]).2 =
      UploadOutcome.redirected ∧
    (upload_results emptyDB "Cup" 5 [{ player := "   ", position := "1" }]).1.players =
      [{ id := 0, name := "" }] ∧
    (upload_results emptyDB "Cup" 5 [{ player := "   ", position := "1" }]).1.results =
      [{ event_id := 0, player_id := 0, position := 1, points := 25 }] := by
  decide

/-- C5 as amended: rows with a blank (empty after trimming) player name are
ingested like any other row — on a fresh event identity, when every position
parses, the call succeeds and persists a Result row linked to a player whose
name is the empty string; no MalformedInput failure exists on this path. -/
theorem upload_blank_name_ingested (db : DB) (event_name : String) (ev_date : Nat)
    (pre rest : List Row) (blank : Row)
    (hfresh : ∀ e ∈ db.events, ¬(e.name = event_name ∧ e.event_date = ev_date))
    (hall : ∀ r ∈ pre ++ blank :: rest, (pyInt r.position).isSome)
    (hblank : pyStrip blank.player = "") :
    (upload_results db event_name ev_date (pre ++ blank :: rest)).2 =
      UploadOutcome.redirected ∧
    ∃ p, p ∈ (upload_results db event_name ev_date (pre ++ blank :: rest)).1.players ∧
      p.name = "" ∧
      ∃ r, r ∈ (upload_results db event_name ev_date (pre ++ blank :: rest)).1.results ∧
        r.player_id = p.id ∧ r.event_id = db.nextEventId := by
  have hf := find?_identity_eq_none db event_name ev_date hfresh
  rw [upload_results_fresh db event_name ev_date _ hf]
  have hpre : ∀ r ∈ pre, (pyInt r.position).isSome := fun r hr =>
    hall r (List.mem_append_left _ hr)
  obtain ⟨pos, hpos⟩ : ∃ pos, pyInt blank.position = some pos := by
    have := hall blank (List.mem_append_right _ (List.mem_cons_self blank rest))
    exact Option.isSome_iff_exists.mp this
  have hflagpre : (ingestLoop db.nextEventId (uploadFreshState db event_name ev_date)
      [] pre).2.2 = true :=
    ingestLoop_success db.nextEventId pre _ [] hpre
  obtain ⟨dbm, pendm, p, hstep, hp_mem, hp_name, hres_mem⟩ :=
    ingestLoop_step_some db.nextEventId
      (ingestLoop db.nextEventId (uploadFreshState db event_name ev_date) [] pre).1
      (ingestLoop db.nextEventId (uploadFreshState db event_name ev_date) [] pre).2.1
      blank rest pos hpos
  have happ : ingestLoop db.nextEventId (uploadFreshState db event_name ev_date) []
      (pre ++ blank :: rest) = ingestLoop db.nextEventId dbm pendm rest := by
    rw [ingestLoop_append db.nextEventId pre (blank :: rest) _ [], if_pos hflagpre, hstep]
  have hflagall : (ingestLoop db.nextEventId (uploadFreshState db event_name ev_date) []
      (pre ++ blank :: rest)).2.2 = true :=
    ingestLoop_success db.nextEventId (pre ++ blank :: rest) _ [] hall
  rw [happ] at hflagall
  rw [happ]
  cases hl : ingestLoop db.nextEventId dbm pendm rest with
  | mk db2 pr =>
      cases pr with
      | mk pending2 flag2 =>
          rw [hl] at hflagall
          simp only at hflagall
          subst hflagall
          refine ⟨rfl, p, ?_, by rw [hp_name, hblank], ?_⟩
          · have hmono := ingestLoop_players_mono db.nextEventId rest dbm pendm p hp_mem
            rw [hl] at hmono
            exact hmono
          · refine ⟨{ event_id := db.nextEventId, player_id := p.id,
                      position := pos, points := points_for pos }, ?_, rfl, rfl⟩
            have hst := ingestLoop_sticky db.nextEventId rest dbm pendm _ hres_mem
            rw [hl] at hst
            rcases hst with hst | hst
            · exact List.mem_append_left _ hst
            · exact List.mem_append_right _ hst

/-- Witness for C5's amended statement on the concrete blank-name batch. -/
theorem upload_blank_name_ingested_witness :
    (upload_results emptyDB "Cup" 5
      ([] ++ { player := "   ", position := "1" } :: [])).2 =
      UploadOutcome.redirected :=
  (upload_blank_name_ingested emptyDB "Cup" 5 [] []
    { player := "   ", position := "1" } (by decide) (by decide) (by decide)).1

/-- C3: `read_standings` returns exactly the players having at least one
persisted Result — each paired with the sum of points over all their Results —
and (given the database's unique-name constraint on players) the output is
strictly ordered: total points descending with ascending alphabetical name
tie-break, a deterministic total order. -/
theorem read_standings_spec (db : DB)
    (hN : (db.players.map Player.name).Nodup) :
    (∀ x, x ∈ read_standings db ↔
      ∃ p, p ∈ db.players ∧ hasResult db p = true ∧ x = (p.name, playerTotal db p)) ∧
    (read_standings db).Pairwise
      (fun x y => y.2 < x.2 ∨ (x.2 = y.2 ∧ nameLe x.1 y.1 ∧ x.1 ≠ y.1)) := by
  constructor
  · intro x
    unfold read_standings
    rw [List.mem_insertionSort]
    simp only [List.mem_map, List.mem_filter]
    constructor
    · rintro ⟨p, ⟨hp, hr⟩, rfl⟩
      exact ⟨p, hp, hr, rfl⟩
    · rintro ⟨p, hp, hr, rfl⟩
      exact ⟨p, ⟨hp, hr⟩, rfl⟩
  · have hs : (read_standings db).Pairwise standingsRel :=
      List.sorted_insertionSort standingsRel _
    have hnd : ((read_standings db).map Prod.fst).Nodup := by
      unfold read_standings
      rw [List.Perm.nodup_iff ((List.perm_insertionSort standingsRel _).map Prod.fst)]
      rw [List.map_map]
      have hcomp : (Prod.fst ∘ fun p : Player => (p.name, playerTotal db p)) =
          Player.name := rfl
      rw [hcomp]
      exact hN.sublist ((List.filter_sublist db.players).map Player.name)
    have hne : (read_standings db).Pairwise (fun x y => x.1 ≠ y.1) :=
      List.pairwise_map.mp hnd
    refine (hs.and hne).imp ?_
    intro a b h
    obtain ⟨hr, hab⟩ := h
    rcases (show b.2 < a.2 ∨ (a.2 = b.2 ∧ nameLe a.1 b.1) from hr) with h1 | ⟨h2, h3⟩
    · exact Or.inl h1
    · exact Or.inr ⟨h2, h3, hab⟩

/-- Witness for C3 on the spec's example database (Alice 25, Bob 25,
Carol 18): Alice's row is in the standings because Alice has a Result, and in
that concrete output the strict descending-points, ascending-name order
holds. -/
theorem read_standings_spec_witness :
    ("Alice", (25 : Int)) ∈ read_standings sampleDB ∧
    (read_standings sampleDB).Pairwise
      (fun x y => y.2 < x.2 ∨ (x.2 = y.2 ∧ nameLe x.1 y.1 ∧ x.1 ≠ y.1)) :=
  ⟨((read_standings_spec sampleDB (by decide)).1 ("Alice", 25)).mpr
    ⟨{ id := 0, name := "Alice" }, by decide, by decide, by decide⟩,
   (read_standings_spec sampleDB (by decide)).2⟩

/-- C8: `read_events` partitions the events by comparison of `event_date`
against the current date: an event dated exactly today lands in the upcoming
partition and not in the past one; upcoming is ordered by date ascending,
past by date descending, and every event belongs to exactly one partition. -/
theorem read_events_spec (db : DB) (today : Nat) :
    (∀ e, e ∈ (read_events db today).1 ↔ e ∈ db.events ∧ today ≤ e.event_date) ∧
    (∀ e, e ∈ (read_events db today).2 ↔ e ∈ db.events ∧ e.event_date < today) ∧
    (read_events db today).1.Pairwise dateAscRel ∧
    (read_events db today).2.Pairwise dateDescRel ∧
    (∀ e ∈ db.events,
      (e ∈ (read_events db today).1 ∧ e ∉ (read_events db today).2) ∨
      (e ∈ (read_events db today).2 ∧ e ∉ (read_events db today).1)) ∧
    (∀ e ∈ db.events, e.event_date = today →
      e ∈ (read_events db today).1 ∧ e ∉ (read_events db today).2) := by
  have hup : ∀ e, e ∈ (read_events db today).1 ↔ e ∈ db.events ∧ today ≤ e.event_date := by
    intro e
    unfold read_events
    rw [List.mem_insertionSort]
    simp
  have hpast : ∀ e, e ∈ (read_events db today).2 ↔ e ∈ db.events ∧ e.event_date < today := by
    intro e
    unfold read_events
    rw [List.mem_insertionSort]
    simp
  refine ⟨hup, hpast, ?_, ?_, ?_, ?_⟩
  · exact List.sorted_insertionSort dateAscRel _
  · exact List.sorted_insertionSort dateDescRel _
  · intro e he
    rcases Nat.lt_or_ge e.event_date today with h | h
    · refine Or.inr ⟨(hpast e).mpr ⟨he, h⟩, ?_⟩
      intro hcontra
      have := ((hup e).mp hcontra).2
      omega
    · refine Or.inl ⟨(hup e).mpr ⟨he, h⟩, ?_⟩
      intro hcontra
      have := ((hpast e).mp hcontra).2
      omega
  · intro e he hd
    refine ⟨(hup e).mpr ⟨he, le_of_eq hd.symm⟩, ?_⟩
    intro hcontra
    have := ((hpast e).mp hcontra).2
    omega

/-- Witness for C8: in `cupDB`, the event dated exactly today (day 5) lands
in the upcoming partition and not in the past one. -/
theorem read_events_spec_witness :
    ({ id := 0, name := "Cup", event_date := 5 } : Event) ∈ (read_events cupDB 5).1 ∧
    ({ id := 0, name := "Cup", event_date := 5 } : Event) ∉ (read_events cupDB 5).2 :=
  (read_events_spec cupDB 5).2.2.2.2.2 { id := 0, name := "Cup", event_date := 5 }
    (by decide) (by decide)

/-- C7: `event_detail` yields the 404 NotFound outcome exactly when no event
with the requested identifier exists; otherwise it returns that event
together with all of its Result rows joined with the player name, sorted
ascending by position.  (The handler is a pure reader in the embedding —
it takes the state and returns only the response, so it changes no persisted
state by construction.) -/
theorem event_detail_spec (db : DB) (event_id : Nat)
    (hFK : ∀ r ∈ db.results, ∃ p ∈ db.players, p.id = r.player_id) :
    (event_detail db event_id = none ↔ ∀ e ∈ db.events, e.id ≠ event_id) ∧
    (∀ ev rs, event_detail db event_id = some (ev, rs) →
      ev ∈ db.events ∧ ev.id = event_id ∧ rs.Pairwise positionRel ∧
      (∀ rn ∈ rs, rn.1 ∈ db.results ∧ rn.1.event_id = event_id ∧
        ∃ p, p ∈ db.players ∧ p.id = rn.1.player_id ∧ p.name = rn.2) ∧
      (∀ r ∈ db.results, r.event_id = event_id → ∃ n, (r, n) ∈ rs)) := by
  unfold event_detail
  cases hf : db.events.find? (fun e => e.id == event_id) with
  | none =>
      refine ⟨⟨fun _ e he hcontra => ?_, fun _ => rfl⟩, fun ev rs h => absurd h (by simp)⟩
      have := List.find?_eq_none.mp hf e he
      simp [hcontra] at this
  | some ev0 =>
      have hev0_mem : ev0 ∈ db.events := List.mem_of_find?_eq_some hf
      have hev0_id : ev0.id = event_id := by simpa using List.find?_some hf
      constructor
      · constructor
        · intro h; exact absurd h (by simp)
        · intro hall; exact absurd hev0_id (hall ev0 hev0_mem)
      · intro ev rs h
        rw [Option.some.injEq, Prod.mk.injEq] at h
        obtain ⟨h1, h2⟩ := h
        subst h1
        subst h2
        refine ⟨hev0_mem, hev0_id, List.sorted_insertionSort positionRel _, ?_, ?_⟩
        · intro rn hrn
          rw [List.mem_insertionSort, List.mem_filterMap] at hrn
          obtain ⟨r1, hr1, hmap⟩ := hrn
          rw [List.mem_filter] at hr1
          cases hx : db.players.find? (fun p => p.id == r1.player_id) with
          | none => rw [hx] at hmap; simp at hmap
          | some p1 =>
              rw [hx] at hmap
              simp only [Option.map_some', Option.some.injEq] at hmap
              subst hmap
              refine ⟨hr1.1, by simpa using hr1.2, p1, List.mem_of_find?_eq_some hx,
                by simpa using List.find?_some hx, rfl⟩
        · intro r hr hre
          obtain ⟨p0, hp0, hid0⟩ := hFK r hr
          have hsome : (db.players.find? (fun p => p.id == r.player_id)).isSome := by
            rw [List.find?_isSome]
            exact ⟨p0, hp0, by simp [hid0]⟩
          obtain ⟨p1, hp1⟩ := Option.isSome_iff_exists.mp hsome
          refine ⟨p1.name, ?_⟩
          rw [List.mem_insertionSort, List.mem_filterMap]
          exact ⟨r, by simp [hr, hre], by rw [hp1]; rfl⟩

/-- Witness for C7 on the example database: event 0 exists and its detail
rows come back ordered by position with the correct player names. -/
theorem event_detail_spec_witness :
    ({ id := 0, name := "Cup", event_date := 5 } : Event) ∈ sampleDB.events ∧
    ({ id := 0, name := "Cup", event_date := 5 } : Event).id = 0 ∧
    ([({ event_id := 0, player_id := 0, position := 1, points := 25 }, "Alice"),
      ({ event_id := 0, player_id := 1, position := 1, points := 25 }, "Bob"),
      ({ event_id := 0, player_id := 2, position := 2, points := 18 }, "Carol")] :
        List (Result × String)).Pairwise positionRel :=
  ⟨((event_detail_spec sampleDB 0 (by decide)).2 { id := 0, name := "Cup", event_date := 5 }
      [({ event_id := 0, player_id := 0, position := 1, points := 25 }, "Alice"),
       ({ event_id := 0, player_id := 1, position := 1, points := 25 }, "Bob"),
       ({ event_id := 0, player_id := 2, position := 2, points := 18 }, "Carol")]
      (by decide)).1,
   ((event_detail_spec sampleDB 0 (by decide)).2 { id := 0, name := "Cup", event_date := 5 }
      [({ event_id := 0, player_id := 0, position := 1, points := 25 }, "Alice"),
       ({ event_id := 0, player_id := 1, position := 1, points := 25 }, "Bob"),
       ({ event_id := 0, player_id := 2, position := 2, points := 18 }, "Carol")]
      (by decide)).2.1,
   ((event_detail_spec sampleDB 0 (by decide)).2 { id := 0, name := "Cup", event_date := 5 }
      [({ event_id := 0, player_id := 0, position := 1, points := 25 }, "Alice"),
       ({ event_id := 0, player_id := 1, position := 1, points := 25 }, "Bob"),
       ({ event_id := 0, player_id := 2, position := 2, points := 18 }, "Carol")]
      (by decide)).2.2.1⟩

/-- Results of an upload: whether the call is a no-op, succeeds, or aborts on
a ValueError, the post-state Result collection is the old one with some rows
appended (mid-loop flushes plus, on success, the final commit), and every
appended row carries `points_for` of its position. -/
theorem upload_results_results_appended (db : DB) (event_name : String) (ev_date : Nat)
    (rows : List Row) :
    ∃ pending, (upload_results db event_name ev_date rows).1.results =
        db.results ++ pending ∧
      ∀ x ∈ pending, x.points = points_for x.position := by
  cases hf : db.events.find? (fun e => e.name == event_name && e.event_date == ev_date) with
  | some e =>
      rw [upload_results_found db event_name ev_date rows e hf]
      exact ⟨[], by simp, by simp⟩
  | none =>
      rw [upload_results_fresh db event_name ev_date rows hf]
      obtain ⟨⟨flushed, hfl, hflP⟩, hpend⟩ :=
        ingestLoop_inv db.nextEventId rows (uploadFreshState db event_name ev_date) []
          (by intro x hx; simp at hx)
      cases hl : ingestLoop db.nextEventId (uploadFreshState db event_name ev_date) [] rows with
      | mk db2 pr =>
          cases pr with
          | mk pending flag =>
              rw [hl] at hfl hpend
              cases flag
              · refine ⟨flushed, ?_, fun x hx => (hflP x hx).1⟩
                show db2.results = db.results ++ flushed
                exact hfl
              · refine ⟨flushed ++ pending, ?_, ?_⟩
                · show db2.results ++ pending = db.results ++ (flushed ++ pending)
                  rw [show db2.results = (uploadFreshState db event_name ev_date).results ++
                      flushed from hfl]
                  show db.results ++ flushed ++ pending = db.results ++ (flushed ++ pending)
                  rw [List.append_assoc]
                · intro x hx
                  rcases List.mem_append.mp hx with hx | hx
                  · exact (hflP x hx).1
                  · exact (hpend x hx).1

/-- C10: every persisted Result row satisfies `points = points_for position`
— Results are only created during ingestion with points computed from the
scoring table and are never updated — so the invariant is preserved by each
state-changing operation (upload, administrative event creation, both
resolvers), and under it every persisted points value lies in
0, 1, 2, 4, 6, 8, 10, 12, 15, 18, 25 and is never negative. -/
theorem results_points_invariant (db : DB) (event_name pname : String) (ev_date : Nat)
    (rows : List Row) (st lo fo ru de : Option String)
    (hInv : ResultsInvariant db) :
    ResultsInvariant (upload_results db event_name ev_date rows).1 ∧
    ResultsInvariant (create_event db event_name ev_date st lo fo ru de).1 ∧
    ResultsInvariant (resolve_player db pname).1 ∧
    ResultsInvariant (resolve_event db event_name ev_date).1 ∧
    ∀ r ∈ db.results, 0 ≤ r.points ∧
      r.points ∈ ({0, 1, 2, 4, 6, 8, 10, 12, 15, 18, 25} : Finset Int) := by
  unfold ResultsInvariant at hInv ⊢
  refine ⟨?_, ?_, ?_, ?_, ?_⟩
  · obtain ⟨pending, h, hp⟩ := upload_results_results_appended db event_name ev_date rows
    intro r hr
    rw [h] at hr
    rcases List.mem_append.mp hr with hr | hr
    · exact hInv r hr
    · exact hp r hr
  · intro r hr
    exact hInv r hr
  · intro r hr
    rw [resolve_player_results] at hr
    exact hInv r hr
  · intro r hr
    rw [resolve_event_results] at hr
    exact hInv r hr
  · intro r hr
    rw [hInv r hr]
    exact points_for_nonneg_mem r.position

/-- Witness for C10: the first Result of the example database carries
in-range, non-negative points. -/
theorem results_points_invariant_witness :
    (0 : Int) ≤ ({ event_id := 0, player_id := 0, position := 1, points := 25 } :
      Result).points ∧
    ({ event_id := 0, player_id := 0, position := 1, points := 25 } : Result).points ∈
      ({0, 1, 2, 4, 6, 8, 10, 12, 15, 18, 25} : Finset Int) :=
  (results_points_invariant sampleDB "Cup" "Alice" 5 [] none none none none none
    (by unfold ResultsInvariant; decide)).2.2.2.2
    { event_id := 0, player_id := 0, position := 1, points := 25 } (by decide)

end AcmeStandings
